import Mathlib

/-!
Verification of the mcp-hub orchestrator core: the service registry
(`registry.py`), the orchestrator health and connection logic (`client.py`),
the ReAct agent loop (`react_agent.py`), and the `/register` endpoint
classification (`main.py`), shallowly embedded in Lean.

Python dictionaries are modelled as functions `String → Option β`; sessions
are opaque objects compared by identity, modelled as `Nat`; timestamps and
timedeltas are modelled as `Int`.
-/

/-- Insert-overwrite on a functional map, the model of `d[k] = v`. -/
def mapInsert {β : Type} (k : String) (v : β) (m : String → Option β) : String → Option β :=
  fun x => if x = k then some v else m x

/-- Deletion on a functional map, the model of `del d[k]` / `d.pop(k, None)`. -/
def mapErase {β : Type} (k : String) (m : String → Option β) : String → Option β :=
  fun x => if x = k then none else m x

/-- JSON values, the model of the Python data handled by the registry and the
tool-schema normalization. -/
inductive Json where
  | null
  | bool (b : Bool)
  | num (n : Int)
  | str (s : String)
  | arr (elems : List Json)
  | obj (fields : List (String × Json))

/-- Python truthiness of a JSON value (`bool(x)`). -/
def jsonTruthy : Json → Bool
  | Json.null => false
  | Json.bool b => b
  | Json.num n => !(n == 0)
  | Json.str s => !(s == "")
  | Json.arr l => !l.isEmpty
  | Json.obj f => !f.isEmpty

/-- Model of `d.get(key)` on a JSON object's field list. -/
def objGet (fields : List (String × Json)) (key : String) : Option Json :=
  match fields with
  | [] => none
  | (k, v) :: rest => if k = key then some v else objGet rest key

/-- Model of the test `parameters.get("type") == "object"` from
`ReActAgent.process_tool_definitions` (react_agent.py) and
`MCPOrchestrator.connect_service` (client.py). -/
def isTypeObject (fields : List (String × Json)) : Bool :=
  match objGet fields "type" with
  | some (Json.str s) => s == "object"
  | _ => false

/-- Parameter-schema normalization fragment shared by
`ReActAgent.process_tool_definitions` (react_agent.py, lines 115-121) and
`MCPOrchestrator.connect_service` (client.py, lines 167-169):

    parameters = tool.inputSchema or \x7b\x7d
    if not isinstance(parameters, dict) or parameters.get("type") != "object":
        parameters = \x7b "type": "object", "properties": parameters,
                       "required": list(parameters.keys()) \x7d

`none` models an absent (`None`) inputSchema; a falsy schema is replaced by
the empty dict by `or`.  When `parameters` is not a dict, the expression
`list(parameters.keys())` raises `AttributeError`, modelled by
`Except.error`. -/
def process_tool_parameters (inputSchema : Option Json) : Except String Json :=
  let parameters : Json :=
    match inputSchema with
    | none => Json.obj []
    | some j => if jsonTruthy j then j else Json.obj []
  match parameters with
  | Json.obj fields =>
    if isTypeObject fields then
      Except.ok (Json.obj fields)
    else
      Except.ok (Json.obj
        [("type", Json.str "object"),
         ("properties", Json.obj fields),
         ("required", Json.arr (fields.map (fun p => Json.str p.1)))])
  | _ => Except.error "AttributeError: parameters object has no attribute keys"

/-- Wrapper the specification describes for a non-object schema: stores
`properties := <original>` and `required := [<top-level keys of the
original>]`.  Modelled from the spec for comparison with the code. -/
def specKeys : Json → List String
  | Json.obj fields => fields.map Prod.fst
  | _ => []

/-- Wrapper built from the spec's words (spec-side definition, for the
comparison in the C7 counterexample). -/
def specWrap (j : Json) : Json :=
  Json.obj
    [("type", Json.str "object"),
     ("properties", j),
     ("required", Json.arr ((specKeys j).map Json.str))]

/-- State of `ServiceRegistry` (registry.py): five dictionaries. -/
structure Registry where
  sessions : String → Option Nat
  service_health : String → Option Int
  tool_cache : String → Option Json
  tool_to_session_map : String → Option Nat
  service_names : String → Option String

/-- Fresh registry, the state built by `ServiceRegistry.__init__`. -/
def emptyRegistry : Registry :=
  { sessions := fun _ => none
    service_health := fun _ => none
    tool_cache := fun _ => none
    tool_to_session_map := fun _ => none
    service_names := fun _ => none }

/-- Tool-installation loop of `ServiceRegistry.add_service` (registry.py,
lines 30-37): walks the offered `(name, definition)` pairs, skipping any name
already present in `tool_cache`, and returns the updated `tool_cache`,
`tool_to_session_map` and the list of added names in order. -/
def installTools (session : Nat) (cache : String → Option Json)
    (owner : String → Option Nat) :
    List (String × Json) →
      (String → Option Json) × (String → Option Nat) × List String
  | [] => (cache, owner, [])
  | (n, d) :: rest =>
    match cache n with
    | some _ => installTools session cache owner rest
    | none =>
      let res := installTools session (mapInsert n d cache) (mapInsert n session owner) rest
      (res.1, res.2.1, n :: res.2.2)

/-- Model of `ServiceRegistry.add_service` (registry.py, lines 18-39).
`now` models `datetime.now()`.  Returns the added tool names and the new
state. -/
def add_service (st : Registry) (url : String) (session : Nat)
    (tools : List (String × Json)) (name : String) (now : Int) :
    List String × Registry :=
  let displayName := if name = "" then url else name
  let res := installTools session st.tool_cache st.tool_to_session_map tools
  (res.2.2,
    { sessions := mapInsert url session st.sessions
      service_health := mapInsert url now st.service_health
      service_names := mapInsert url displayName st.service_names
      tool_cache := res.1
      tool_to_session_map := res.2.1 })

/-- Model of `ServiceRegistry.remove_service` (registry.py, lines 41-66):
pops the session (no state change when absent), removes the health and name
records, and removes every tool whose owning session equals the popped
session. -/
def remove_service (st : Registry) (url : String) : Option Nat × Registry :=
  match st.sessions url with
  | none => (none, st)
  | some s =>
    (some s,
      { sessions := mapErase url st.sessions
        service_health := mapErase url st.service_health
        service_names := mapErase url st.service_names
        tool_cache := fun t =>
          if st.tool_to_session_map t = some s then none else st.tool_cache t
        tool_to_session_map := fun t =>
          if st.tool_to_session_map t = some s then none else st.tool_to_session_map t })

/-- Model of `ServiceRegistry.update_service_health` (registry.py, lines
116-120): refreshes the heartbeat timestamp only for active sessions. -/
def update_service_health (st : Registry) (url : String) (now : Int) : Registry :=
  if (st.sessions url).isSome then
    { st with service_health := mapInsert url now st.service_health }
  else st

/-- Joint invariant 1 of the spec: `dom(Sessions) = dom(Names) =
dom(LastHeartbeat)`. -/
def SessionDomsAligned (st : Registry) : Prop :=
  ∀ u, ((st.sessions u).isSome ↔ (st.service_names u).isSome)
    ∧ ((st.sessions u).isSome ↔ (st.service_health u).isSome)

/-- Joint invariant 2 of the spec: `dom(ToolDef) = dom(ToolOwner)`. -/
def ToolDomsAligned (st : Registry) : Prop :=
  ∀ t, (st.tool_cache t).isSome ↔ (st.tool_to_session_map t).isSome

/-- Joint invariant 3 of the spec: every session stored in `ToolOwner` is in
`range(Sessions)`. -/
def OwnersLive (st : Registry) : Prop :=
  ∀ t s, st.tool_to_session_map t = some s → ∃ u, st.sessions u = some s

/-- Conjunction of the three joint registry invariants. -/
def RegistryInvariant (st : Registry) : Prop :=
  SessionDomsAligned st ∧ ToolDomsAligned st ∧ OwnersLive st

/-- Registry operations reachable through the public API. -/
inductive RegOp where
  | add (url : String) (session : Nat) (tools : List (String × Json))
      (name : String) (now : Int)
  | remove (url : String)
  | updateHealth (url : String) (now : Int)

/-- Effect of one registry operation. -/
def applyOp (st : Registry) : RegOp → Registry
  | RegOp.add url session tools name now => (add_service st url session tools name now).2
  | RegOp.remove url => (remove_service st url).2
  | RegOp.updateHealth url now => update_service_health st url now

/-- Precondition of an operation: `add` requires the url to be unregistered
(the orchestrator detaches first, client.py lines 94-96) and the session
object to be fresh; the other operations are unconditional. -/
def ValidOp (st : Registry) : RegOp → Prop
  | RegOp.add url session _ _ _ =>
      st.sessions url = none ∧ ∀ u, st.sessions u ≠ some session
  | RegOp.remove _ => True
  | RegOp.updateHealth _ _ => True

/-- Effect of a sequence of registry operations. -/
def applyOps (st : Registry) : List RegOp → Registry
  | [] => st
  | op :: rest => applyOps (applyOp st op) rest

/-- Validity of a sequence of registry operations: each operation satisfies
its precondition in the state it runs in. -/
def ValidOps (st : Registry) : List RegOp → Prop
  | [] => True
  | op :: rest => ValidOp st op ∧ ValidOps (applyOp st op) rest

/-- Model of `MCPOrchestrator.is_service_healthy` (client.py, lines 331-336):
healthy iff a heartbeat record exists and its age is at most the configured
timeout. -/
def is_service_healthy (st : Registry) (heartbeat_timeout now : Int)
    (url : String) : Bool :=
  match st.service_health url with
  | none => false
  | some t => decide (now - t ≤ heartbeat_timeout)

/-- Expiry test of `MCPOrchestrator._check_all_services` (client.py, lines
244-258): a snapshot url is marked expired when its heartbeat age is strictly
greater than the timeout, or its heartbeat record is missing. -/
def heartbeatExpired (st : Registry) (heartbeat_timeout now : Int)
    (url : String) : Bool :=
  match st.service_health url with
  | none => true
  | some t => decide (now - t > heartbeat_timeout)

/-- Python's `pat in s` on strings: substring containment. -/
def pyIn (pat s : String) : Bool :=
  decide (pat.data <:+: s.data)

/-- Failure classes of `MCPOrchestrator.connect_service` (client.py, lines
193-218), one per `except` branch of its unified exception handling. -/
inductive ConnectFailure where
  | protocolTimeout
  | connectError (e : String)
  | requestError (e : String)
  | http502
  | httpStatus (code : Nat)
  | setupError (ty e : String)

/-- Diagnostic message returned by `MCPOrchestrator.connect_service` for each
failure class (client.py, lines 193-218), verbatim from the source
f-strings. -/
def connectFailureMessage (f : ConnectFailure) (displayName serverUrl : String) : String :=
  match f with
  | ConnectFailure.protocolTimeout =>
      "Connection timeout: Protocol interaction with service " ++ displayName ++
      " (" ++ serverUrl ++ ") timed out (30 seconds). Please check target server responsiveness."
  | ConnectFailure.connectError e =>
      "Could not connect to service " ++ displayName ++ " (" ++ serverUrl ++ "): " ++ e ++
      ". Please check if the service is running and network connectivity."
  | ConnectFailure.requestError e =>
      "Network connection error: " ++ e
  | ConnectFailure.http502 =>
      "Connection failed: Target service returned 502 Bad Gateway. Please check if target service (\x27" ++
      displayName ++ "\x27) is healthy."
  | ConnectFailure.httpStatus code =>
      "Connection failed: Target service returned HTTP " ++ toString code ++ " error."
  | ConnectFailure.setupError ty e =>
      "Service initialization or setup failed (type: " ++ ty ++ "): " ++ e

/-- Failure classification of `register_service_endpoint` (main.py, lines
256-263): substring matching on the diagnostic message decides the surfaced
status code and whether the url joins the pending-reconnect set. -/
def registerClassify (message : String) : Nat × Bool :=
  if pyIn "502 Bad Gateway" message then (502, true)
  else if pyIn "Connection failed" message || pyIn "Network connection error" message then
    (502, true)
  else (500, false)

/-- End-to-end model of `register_service_endpoint` (main.py, lines 238-265)
around `connect_service`: `none` is a successful attach (which discards the
url from the pending set inside `connect_service`, client.py line 185); a
failure is classified by `registerClassify` and the url is added to the
pending set exactly when the classification reports a connection issue.
Returns the surfaced status code and the new pending-reconnect set. -/
def registerResult (pending : String → Bool) (url displayName : String)
    (outcome : Option ConnectFailure) : Nat × (String → Bool) :=
  match outcome with
  | none => (200, fun u => if u = url then false else pending u)
  | some f =>
    let msg := connectFailureMessage f displayName url
    let cls := registerClassify msg
    (cls.1, if cls.2 then (fun u => if u = url then true else pending u) else pending)

/-- One requested tool call as exposed by the model response
(`message.tool_calls[0]`). -/
structure ToolCallReq where
  id : String
  name : String
  arguments : String

/-- Model response shape the agent loop inspects:
`choices[0].finish_reason`, `choices[0].message.content`,
`choices[0].message.tool_calls`. -/
structure ModelResponse where
  finish_reason : String
  content : Option String
  tool_calls : List ToolCallReq

/-- Outcome of one `llm_client.chat.completions.create` call: a response, a
`TypeError`, or any other exception (react_agent.py, lines 190-292). -/
inductive LLMOutcome where
  | ok (response : ModelResponse)
  | typeError (e : String)
  | otherError (msg : String)

/-- Result object of `session.call_tool`: its `content` list, each item
carrying an optional `text` attribute (`none` models a missing attribute,
`some ""` a falsy text). -/
structure CallResult where
  content : List (Option String)

/-- Environment of one agent-loop iteration: the model outcome, and for a
requested tool call the results of `json.loads` on the arguments, of
`registry.get_session_for_tool`, of `is_service_healthy`, and of
`call_tool` (an `Except.error` models a raised exception). -/
structure IterOracle where
  llm : LLMOutcome
  parse : Except String Json
  owner : Option Nat
  healthy : Bool
  call : Except String CallResult

/-- Chat-history messages built by `ReActAgent.process_query`: the assistant
tool-call turn carries `content: None`. -/
inductive Message where
  | system (content : String)
  | user (content : String)
  | assistantToolCall (id name arguments : String)
  | tool (tool_call_id : String) (content : String)

/-- The `content` field of a message dictionary. -/
def msgContent : Message → Option String
  | Message.system c => some c
  | Message.user c => some c
  | Message.assistantToolCall _ _ _ => none
  | Message.tool _ c => some c

/-- Detects assistant-role messages (spec-side helper for the phrase "the
last assistant content from the message history"). -/
def isAssistantMsg : Message → Bool
  | Message.assistantToolCall _ _ _ => true
  | _ => false

/-- Content of the last assistant message in the history, read with
`.get("content", "")`.  Modelled from the spec: the spec's cap-result
sentence says the prefix is "followed by the last assistant content". -/
def lastAssistantContentD (msgs : List Message) : String :=
  match (msgs.filter isAssistantMsg).getLast? with
  | none => ""
  | some m => (msgContent m).getD ""

/-- Final-answer extraction `message.content.strip() if message.content else
""` (react_agent.py, line 281). -/
def finalAnswer (content : Option String) : String :=
  match content with
  | none => ""
  | some c => if c = "" then "" else c.trim

/-- Tool-dispatch block of `ReActAgent.process_query` (react_agent.py, lines
226-263): every failure is converted into a result string.  The outer
`except json.JSONDecodeError` catches the argument parse failure; the health
check runs only for a resolved owner; a `call_tool` exception and an
unexpected result shape also become strings. -/
def dispatchToolCall (o : IterOracle) (fname : String) : String :=
  match o.parse with
  | Except.error e =>
      "Error: Unable to parse parameters for tool \x27" ++ fname ++ "\x27: " ++ e
  | Except.ok _ =>
    match o.owner with
    | none => "Error: Could not find service to execute tool \x27" ++ fname ++ "\x27."
    | some _ =>
      if o.healthy = false then
        "Error: The service required to execute tool \x27" ++ fname ++ "\x27 is currently unavailable."
      else
        match o.call with
        | Except.error e =>
            "Error: An internal error occurred while calling tool \x27" ++ fname ++ "\x27: " ++ e
        | Except.ok r =>
          match r.content with
          | [] => "Info: Tool \x27" ++ fname ++ "\x27 executed, but result format was unexpected."
          | none :: _ => "Info: Tool \x27" ++ fname ++ "\x27 executed, but result format was unexpected."
          | some t :: _ => if t = "" then "[No result]" else t

/-- Result of one iteration of the agent loop: either the loop returns, or it
continues with the extended message history. -/
inductive StepOut where
  | done (result : String)
  | next (msgs : List Message)

/-- One iteration body of `ReActAgent.process_query` (react_agent.py, lines
190-282): on a `tool_calls` finish with a non-empty list, append the
assistant tool-call turn and the tool-result turn and continue; otherwise
return the final answer; an exception of the model call returns the
corresponding error string. -/
def loopStep (o : IterOracle) (msgs : List Message) : StepOut :=
  match o.llm with
  | LLMOutcome.typeError e =>
      StepOut.done ("Error: Type error during language model call, please check SDK parameters. (" ++ e ++ ")")
  | LLMOutcome.otherError m =>
      StepOut.done ("Error processing your request. (" ++ m ++ ")")
  | LLMOutcome.ok resp =>
    match resp.tool_calls with
    | tc :: _ =>
      if resp.finish_reason = "tool_calls" then
        StepOut.next
          (msgs ++ [Message.assistantToolCall tc.id tc.name tc.arguments,
                    Message.tool tc.id (dispatchToolCall o tc.name)])
      else StepOut.done (finalAnswer resp.content)
    | [] => StepOut.done (finalAnswer resp.content)

/-- Cap result built after the loop (react_agent.py, lines 296-297):
`"Processing your request exceeded the maximum iteration limit (N). " +
messages[-1].get("content", "")`.  When the last message carries `content:
None` the Python concatenation raises `TypeError`, modelled by `none`. -/
def capMessage (maxIterations : Nat) (msgs : List Message) : Option String :=
  match msgs.getLast? with
  | none =>
      some ("Processing your request exceeded the maximum iteration limit (" ++
        toString maxIterations ++ "). ")
  | some m =>
      (msgContent m).map (fun c =>
        "Processing your request exceeded the maximum iteration limit (" ++
        toString maxIterations ++ "). " ++ c)

/-- Configuration of the agent (react_agent.py `__init__` and the per-call
config reads). -/
structure AgentConfig where
  hasClient : Bool
  llmConfigured : Bool
  maxIterations : Nat

/-- Observable outcome of a `process_query` run: the returned string (`none`
models an uncaught exception), the number of model calls, the number of tool
dispatches, and the final message history. -/
structure RunResult where
  result : Option String
  modelCalls : Nat
  toolDispatches : Nat
  messages : List Message

/-- The `while iterations < self.max_iterations` loop of
`ReActAgent.process_query` (react_agent.py, lines 172-298), with the
remaining iteration budget as fuel and the environment indexed by the number
of model calls made so far. -/
def processQueryAux (cfg : AgentConfig) (oracle : Nat → IterOracle) :
    Nat → List Message → Nat → Nat → RunResult
  | 0, msgs, calls, disp =>
    { result := capMessage cfg.maxIterations msgs
      modelCalls := calls, toolDispatches := disp, messages := msgs }
  | fuel + 1, msgs, calls, disp =>
    if cfg.llmConfigured = false then
      { result := some "Error: Language model name not configured."
        modelCalls := calls, toolDispatches := disp, messages := msgs }
    else
      match loopStep (oracle calls) msgs with
      | StepOut.done r =>
        { result := some r, modelCalls := calls + 1, toolDispatches := disp, messages := msgs }
      | StepOut.next msgs2 =>
        processQueryAux cfg oracle fuel msgs2 (calls + 1) (disp + 1)

/-- Model of `ReActAgent.process_query` (react_agent.py, lines 143-298): the
client check, the initial system and user turns, and the bounded ReAct
loop. -/
def process_query (cfg : AgentConfig) (oracle : Nat → IterOracle)
    (sysPrompt query : String) : RunResult :=
  if cfg.hasClient = false then
    { result := some "Error: Language model client not configured."
      modelCalls := 0, toolDispatches := 0, messages := [] }
  else
    processQueryAux cfg oracle cfg.maxIterations
      [Message.system sysPrompt, Message.user query] 0 0

/-- Concrete operation trace used to witness the registry invariant theorem:
two attaches with a colliding tool name, a heartbeat refresh, and a
detach. -/
def c1WitnessOps : List RegOp :=
  [RegOp.add "http://a/sse" 1 [("t1", Json.obj [])] "svc" 5,
   RegOp.updateHealth "http://a/sse" 9,
   RegOp.add "http://b/sse" 2 [("t1", Json.null), ("t2", Json.obj [])] "" 10,
   RegOp.remove "http://a/sse"]

/-- Registry after attaching server A offering tool `echo` (witness input for
the first-writer-wins theorem). -/
def c3StateA : Registry :=
  (add_service emptyRegistry "http://a/sse" 1 [("echo", Json.obj [])] "A" 0).2

/-- Registry holding one service at url `u` with session `1` owning tool `t1`
(witness input for the bypassed-precondition theorem). -/
def c10State : Registry :=
  (add_service emptyRegistry "u" 1 [("t1", Json.obj [])] "old" 0).2

/-- Registry holding one service attached at time 10 (witness input for the
health-check theorem). -/
def c6State : Registry :=
  (add_service emptyRegistry "http://a/sse" 1 [] "A" 10).2

/-- Model response requesting a tool call with unparsable arguments (witness
input for the dispatch-failure theorem). -/
def c5Tc : ToolCallReq :=
  { id := "call-1", name := "get_weather", arguments := "not json" }

/-- Model response wrapper for `c5Tc`. -/
def c5Resp : ModelResponse :=
  { finish_reason := "tool_calls", content := some "use tool", tool_calls := [c5Tc] }

/-- Iteration environment whose argument string fails `json.loads` (witness
input for the dispatch-failure theorem). -/
def c5Oracle : IterOracle :=
  { llm := LLMOutcome.ok c5Resp
    parse := Except.error "Expecting value: line 1 column 1 (char 0)"
    owner := some 7
    healthy := true
    call := Except.ok { content := [some "sunny"] } }

/-- Agent configuration with iteration cap 1 (input of the iteration-cap
counterexample and witness). -/
def c8Cfg : AgentConfig :=
  { hasClient := true, llmConfigured := true, maxIterations := 1 }

/-- Environment whose model always requests a call of an unknown tool `f`
(input of the iteration-cap counterexample and witness). -/
def c8Oracle : Nat → IterOracle := fun _ =>
  { llm := LLMOutcome.ok
      { finish_reason := "tool_calls"
        content := some "calling f"
        tool_calls := [{ id := "id0", name := "f", arguments := "\x7b\x7d" }] }
    parse := Except.ok (Json.obj [])
    owner := none
    healthy := true
    call := Except.ok { content := [] } }

/-- A tool already present in the cache is preserved untouched by the
installation loop: its definition and owner are unchanged and its name is not
reported as added. -/
theorem installTools_preserved (session : Nat) (cache : String → Option Json)
    (owner : String → Option Nat) (tools : List (String × Json))
    (t : String) (d : Json) (h : cache t = some d) :
    (installTools session cache owner tools).1 t = some d
    ∧ (installTools session cache owner tools).2.1 t = owner t
    ∧ t ∉ (installTools session cache owner tools).2.2 := by
  induction tools generalizing cache owner with
  | nil => simp [installTools, h]
  | cons p rest ih =>
    obtain ⟨n, dn⟩ := p
    cases hcn : cache n with
    | some d0 =>
      simpa [installTools, hcn] using ih cache owner h
    | none =>
      have hnt : t ≠ n := by
        intro he
        rw [he] at h
        rw [h] at hcn
        exact Option.noConfusion hcn
      have hc2 : mapInsert n dn cache t = some d := by
        simp [mapInsert, hnt, h]
      have ih2 := ih (mapInsert n dn cache) (mapInsert n session owner) hc2
      refine ⟨?_, ?_, ?_⟩
      · simpa [installTools, hcn] using ih2.1
      · have : mapInsert n session owner t = owner t := by simp [mapInsert, hnt]
        simpa [installTools, hcn, this] using ih2.2.1
      · simp only [installTools, hcn, List.mem_cons]
        rintro (he | hm)
        · exact hnt he
        · exact ih2.2.2 hm

/-- Domain of the tool cache after installation: the old keys plus the
offered names. -/
theorem installTools_dom (session : Nat) (cache : String → Option Json)
    (owner : String → Option Nat) (tools : List (String × Json)) (t : String) :
    (((installTools session cache owner tools).1 t).isSome
      ↔ ((cache t).isSome ∨ t ∈ tools.map Prod.fst)) := by
  induction tools generalizing cache owner with
  | nil => simp [installTools]
  | cons p rest ih =>
    obtain ⟨n, dn⟩ := p
    cases hcn : cache n with
    | some d0 =>
      rw [show installTools session cache owner ((n, dn) :: rest)
            = installTools session cache owner rest by simp [installTools, hcn]]
      rw [ih cache owner]
      constructor
      · rintro (hc | hm)
        · exact Or.inl hc
        · exact Or.inr (by simp [hm])
      · rintro (hc | hm)
        · exact Or.inl hc
        · have hm2 : t = n ∨ t ∈ rest.map Prod.fst := by
            simp only [List.map_cons, List.mem_cons] at hm
            exact hm
          rcases hm2 with he | hm3
          · exact Or.inl (by rw [he, hcn]; rfl)
          · exact Or.inr hm3
    | none =>
      have hred : (installTools session cache owner ((n, dn) :: rest)).1 t
          = (installTools session (mapInsert n dn cache) (mapInsert n session owner) rest).1 t := by
        simp [installTools, hcn]
      rw [hred, ih (mapInsert n dn cache) (mapInsert n session owner)]
      by_cases hnt : t = n
      · subst hnt
        simp [mapInsert]
      · simp [mapInsert, hnt]

/-- A freshly offered name (absent from the cache) ends up owned by the
adding session. -/
theorem installTools_new_owner (session : Nat) (cache : String → Option Json)
    (owner : String → Option Nat) (tools : List (String × Json)) (t : String)
    (hnone : cache t = none) (hmem : t ∈ tools.map Prod.fst) :
    (installTools session cache owner tools).2.1 t = some session := by
  induction tools generalizing cache owner with
  | nil => simp at hmem
  | cons p rest ih =>
    obtain ⟨n, dn⟩ := p
    cases hcn : cache n with
    | some d0 =>
      have hnt : t ≠ n := by
        intro he
        rw [he, hcn] at hnone
        exact Option.noConfusion hnone
      have hm2 : t ∈ rest.map Prod.fst := by
        have := hmem
        simp only [List.map_cons, List.mem_cons] at this
        rcases this with he | hm
        · exact absurd he hnt
        · exact hm
      simpa [installTools, hcn] using ih cache owner hnone hm2
    | none =>
      by_cases hnt : t = n
      · subst hnt
        have : mapInsert t dn cache t = some dn := by simp [mapInsert]
        have hp := installTools_preserved session (mapInsert t dn cache)
          (mapInsert t session owner) rest t dn this
        have ho : mapInsert t session owner t = some session := by simp [mapInsert]
        simpa [installTools, hcn, ho] using hp.2.1
      · have hc2 : mapInsert n dn cache t = none := by simp [mapInsert, hnt, hnone]
        have hm2 : t ∈ rest.map Prod.fst := by
          have := hmem
          simp only [List.map_cons, List.mem_cons] at this
          rcases this with he | hm
          · exact absurd he hnt
          · exact hm
        simpa [installTools, hcn] using
          ih (mapInsert n dn cache) (mapInsert n session owner) hc2 hm2

/-- Every owner recorded after installation is either an old owner or the
adding session. -/
theorem installTools_owner_range (session : Nat) (cache : String → Option Json)
    (owner : String → Option Nat) (tools : List (String × Json)) (t : String) (s : Nat)
    (h : (installTools session cache owner tools).2.1 t = some s) :
    owner t = some s ∨ s = session := by
  induction tools generalizing cache owner with
  | nil => exact Or.inl (by simpa [installTools] using h)
  | cons p rest ih =>
    obtain ⟨n, dn⟩ := p
    cases hcn : cache n with
    | some d0 =>
      exact ih cache owner (by simpa [installTools, hcn] using h)
    | none =>
      have h2 : (installTools session (mapInsert n dn cache)
          (mapInsert n session owner) rest).2.1 t = some s := by
        simpa [installTools, hcn] using h
      rcases ih (mapInsert n dn cache) (mapInsert n session owner) h2 with ho | hs
      · by_cases hnt : t = n
        · subst hnt
          simp [mapInsert] at ho
          exact Or.inr ho.symm
        · simp [mapInsert, hnt] at ho
          exact Or.inl ho
      · exact Or.inr hs

/-- Installation keeps the cache and owner maps keyed identically. -/
theorem installTools_doms_aligned (session : Nat) (cache : String → Option Json)
    (owner : String → Option Nat) (tools : List (String × Json))
    (h : ∀ x, (cache x).isSome ↔ (owner x).isSome) (t : String) :
    (((installTools session cache owner tools).1 t).isSome
      ↔ ((installTools session cache owner tools).2.1 t).isSome) := by
  induction tools generalizing cache owner with
  | nil => simpa [installTools] using h t
  | cons p rest ih =>
    obtain ⟨n, dn⟩ := p
    cases hcn : cache n with
    | some d0 =>
      simpa [installTools, hcn] using ih cache owner h
    | none =>
      have h2 : ∀ x, ((mapInsert n dn cache x).isSome ↔ (mapInsert n session owner x).isSome) := by
        intro x
        by_cases hx : x = n
        · simp [mapInsert, hx]
        · simpa [mapInsert, hx] using h x
      simpa [installTools, hcn] using ih (mapInsert n dn cache) (mapInsert n session owner) h2

/-- The fresh registry satisfies the joint invariants. -/
theorem registry_invariant_empty : RegistryInvariant emptyRegistry := by
  refine ⟨fun u => ⟨Iff.rfl, Iff.rfl⟩, fun t => Iff.rfl, fun t s h => ?_⟩
  simp [emptyRegistry] at h

/-- `add_service` under its precondition preserves the joint invariants. -/
theorem add_service_preserves_invariant (st : Registry) (url : String) (session : Nat)
    (tools : List (String × Json)) (name : String) (now : Int)
    (hinv : RegistryInvariant st)
    (hurl : st.sessions url = none)
    (hfresh : ∀ u, st.sessions u ≠ some session) :
    RegistryInvariant (add_service st url session tools name now).2 := by
  obtain ⟨h1, h2, h3⟩ := hinv
  refine ⟨?_, ?_, ?_⟩
  · intro u
    by_cases hu : u = url
    · simp [add_service, mapInsert, hu]
    · simpa [add_service, mapInsert, hu] using h1 u
  · intro t
    simpa [add_service] using
      installTools_doms_aligned session st.tool_cache st.tool_to_session_map tools h2 t
  · intro t s h
    have h4 : (installTools session st.tool_cache st.tool_to_session_map tools).2.1 t
        = some s := by simpa [add_service] using h
    rcases installTools_owner_range session st.tool_cache st.tool_to_session_map tools t s h4
      with ho | hs
    · obtain ⟨u, hu⟩ := h3 t s ho
      have hne : u ≠ url := by
        intro he
        rw [he, hurl] at hu
        exact Option.noConfusion hu
      exact ⟨u, by simpa [add_service, mapInsert, hne] using hu⟩
    · exact ⟨url, by simp [add_service, mapInsert, hs]⟩

/-- `remove_service` preserves the joint invariants unconditionally. -/
theorem remove_service_preserves_invariant (st : Registry) (url : String)
    (hinv : RegistryInvariant st) :
    RegistryInvariant (remove_service st url).2 := by
  obtain ⟨h1, h2, h3⟩ := hinv
  cases hs : st.sessions url with
  | none => simpa [remove_service, hs] using ⟨h1, h2, h3⟩
  | some s =>
    refine ⟨?_, ?_, ?_⟩
    · intro u
      by_cases hu : u = url
      · simp [remove_service, hs, mapErase, hu]
      · simpa [remove_service, hs, mapErase, hu] using h1 u
    · intro t
      by_cases ho : st.tool_to_session_map t = some s
      · simp [remove_service, hs, ho]
      · simpa [remove_service, hs, ho] using h2 t
    · intro t s2 h
      by_cases ho : st.tool_to_session_map t = some s
      · simp [remove_service, hs, ho] at h
      · have h5 : st.tool_to_session_map t = some s2 := by
          simpa [remove_service, hs, ho] using h
        obtain ⟨u, hu⟩ := h3 t s2 h5
        have hne : u ≠ url := by
          intro he
          rw [he, hs] at hu
          have : s = s2 := by injection hu
          rw [this] at ho
          exact ho h5
        exact ⟨u, by simpa [remove_service, hs, mapErase, hne] using hu⟩

/-- `update_service_health` preserves the joint invariants. -/
theorem update_service_health_preserves_invariant (st : Registry) (url : String) (now : Int)
    (hinv : RegistryInvariant st) :
    RegistryInvariant (update_service_health st url now) := by
  obtain ⟨h1, h2, h3⟩ := hinv
  by_cases hs : (st.sessions url).isSome
  · refine ⟨?_, ?_, ?_⟩
    · intro u
      refine ⟨by simpa [update_service_health, hs] using (h1 u).1, ?_⟩
      by_cases hu : u = url
      · subst hu
        simp [update_service_health, hs, mapInsert]
      · simpa [update_service_health, hs, mapInsert, hu] using (h1 u).2
    · intro t
      simpa [update_service_health, hs] using h2 t
    · intro t s h
      have h5 : st.tool_to_session_map t = some s := by
        simpa [update_service_health, hs] using h
      obtain ⟨u, hu⟩ := h3 t s h5
      exact ⟨u, by simpa [update_service_health, hs] using hu⟩
  · simpa [update_service_health, hs] using ⟨h1, h2, h3⟩

/-- Each valid registry operation preserves the joint invariants. -/
theorem registry_invariant_step (st : Registry) (op : RegOp)
    (hinv : RegistryInvariant st) (hv : ValidOp st op) :
    RegistryInvariant (applyOp st op) := by
  cases op with
  | add url session tools name now =>
    exact add_service_preserves_invariant st url session tools name now hinv hv.1 hv.2
  | remove url => exact remove_service_preserves_invariant st url hinv
  | updateHealth url now => exact update_service_health_preserves_invariant st url now hinv

/-- A prefix of a valid operation sequence is valid. -/
theorem validOps_take (ops : List RegOp) (st : Registry) (n : Nat)
    (h : ValidOps st ops) : ValidOps st (ops.take n) := by
  induction ops generalizing st n with
  | nil => simpa [ValidOps] using h
  | cons op rest ih =>
    cases n with
    | zero => trivial
    | succ m => exact ⟨h.1, ih (applyOp st op) m h.2⟩

/-- Running a valid operation sequence from an invariant state lands in an
invariant state. -/
theorem registry_invariant_run (ops : List RegOp) (st : Registry)
    (hinv : RegistryInvariant st) (h : ValidOps st ops) :
    RegistryInvariant (applyOps st ops) := by
  induction ops generalizing st with
  | nil => simpa [applyOps] using hinv
  | cons op rest ih =>
    exact ih (applyOp st op) (registry_invariant_step st op hinv h.1) h.2

/-- C1: for every sequence of registry operations made of `add_service`
(under the precondition that the url is unregistered and the session object
is fresh), `remove_service` and `update_service_health`, starting from the
empty registry, the joint invariants hold at every point of the run:
`dom(Sessions) = dom(Names) = dom(LastHeartbeat)`,
`dom(ToolDef) = dom(ToolOwner)`, and every session stored in `ToolOwner` is
in `range(Sessions)`. -/
theorem registry_invariants_preserved (ops : List RegOp) (n : Nat)
    (h : ValidOps emptyRegistry ops) :
    RegistryInvariant (applyOps emptyRegistry (ops.take n)) :=
  registry_invariant_run (ops.take n) emptyRegistry registry_invariant_empty
    (validOps_take ops emptyRegistry n h)

/-- Witness for C1: the concrete four-operation trace `c1WitnessOps` is valid
and the theorem yields the invariants of its final state. -/
theorem registry_invariants_preserved_witness :
    RegistryInvariant (applyOps emptyRegistry (c1WitnessOps.take 4)) := by
  apply registry_invariants_preserved
  refine ⟨⟨rfl, ?_⟩, ?_, ⟨?_, ?_⟩, trivial, trivial⟩
  · intro u
    simp [emptyRegistry]
  · exact trivial
  · show (applyOp (applyOp emptyRegistry _) _).sessions "http://b/sse" = none
    simp [c1WitnessOps, applyOp, add_service, update_service_health,
      emptyRegistry, mapInsert]
  · intro u
    simp only [applyOp, add_service, update_service_health, emptyRegistry]
    by_cases hu : u = "http://a/sse" <;> simp [mapInsert, hu]

/-- C9: `remove_service` is idempotent on unknown urls: when the url is not
in `dom(Sessions)` it returns `None` and leaves all five registry maps
unchanged. -/
theorem remove_service_unknown_noop (st : Registry) (url : String)
    (h : st.sessions url = none) :
    remove_service st url = (none, st) := by
  simp [remove_service, h]

/-- Witness for C9: removing an unregistered url from the fresh registry
returns `None` and the identical state. -/
theorem remove_service_unknown_noop_witness :
    remove_service emptyRegistry "http://a/sse" = (none, emptyRegistry) :=
  remove_service_unknown_noop emptyRegistry "http://a/sse" rfl

/-- C3: name collisions at add are resolved first-writer-wins.  A tool name
already present in `tool_cache` is skipped: it is omitted from the returned
added names and the existing owner's `tool_cache` and `tool_to_session_map`
entries are untouched.  Attaching server A then server B from the empty
registry installs exactly the names `M(A) ∪ (M(B) \ M(A))`, and every name of
`M(A)` remains owned by A's session. -/
theorem add_service_first_writer_wins :
    (∀ (st : Registry) (url : String) (session : Nat) (tools : List (String × Json))
        (name : String) (now : Int) (t : String),
      (st.tool_cache t).isSome →
        t ∉ (add_service st url session tools name now).1
        ∧ (add_service st url session tools name now).2.tool_cache t = st.tool_cache t
        ∧ (add_service st url session tools name now).2.tool_to_session_map t
            = st.tool_to_session_map t)
    ∧ (∀ (urlA : String) (sA : Nat) (toolsA : List (String × Json)) (nameA : String)
        (nowA : Int) (urlB : String) (sB : Nat) (toolsB : List (String × Json))
        (nameB : String) (nowB : Int) (t : String),
      (((add_service (add_service emptyRegistry urlA sA toolsA nameA nowA).2
            urlB sB toolsB nameB nowB).2.tool_cache t).isSome
          ↔ (t ∈ toolsA.map Prod.fst ∨ (t ∈ toolsB.map Prod.fst ∧ t ∉ toolsA.map Prod.fst)))
      ∧ (t ∈ toolsA.map Prod.fst →
          (add_service (add_service emptyRegistry urlA sA toolsA nameA nowA).2
              urlB sB toolsB nameB nowB).2.tool_to_session_map t = some sA)) := by
  constructor
  · intro st url session tools name now t hsome
    obtain ⟨d, hd⟩ := Option.isSome_iff_exists.mp hsome
    have hp := installTools_preserved session st.tool_cache st.tool_to_session_map tools t d hd
    refine ⟨?_, ?_, ?_⟩
    · simpa [add_service] using hp.2.2
    · simp only [add_service]
      rw [hp.1, hd]
    · simpa [add_service] using hp.2.1
  · intro urlA sA toolsA nameA nowA urlB sB toolsB nameB nowB t
    have hcacheA : ∀ x, (add_service emptyRegistry urlA sA toolsA nameA nowA).2.tool_cache x
        = (installTools sA emptyRegistry.tool_cache emptyRegistry.tool_to_session_map toolsA).1 x := by
      intro x
      simp [add_service]
    have hdomA : ∀ x, (((add_service emptyRegistry urlA sA toolsA nameA nowA).2.tool_cache x).isSome
        ↔ x ∈ toolsA.map Prod.fst) := by
      intro x
      rw [hcacheA x]
      simpa [emptyRegistry] using
        installTools_dom sA emptyRegistry.tool_cache emptyRegistry.tool_to_session_map toolsA x
    constructor
    · have hdomB := installTools_dom sB
        (add_service emptyRegistry urlA sA toolsA nameA nowA).2.tool_cache
        (add_service emptyRegistry urlA sA toolsA nameA nowA).2.tool_to_session_map toolsB t
      rw [show ((add_service (add_service emptyRegistry urlA sA toolsA nameA nowA).2
            urlB sB toolsB nameB nowB).2.tool_cache t)
          = (installTools sB (add_service emptyRegistry urlA sA toolsA nameA nowA).2.tool_cache
              (add_service emptyRegistry urlA sA toolsA nameA nowA).2.tool_to_session_map toolsB).1 t
          by simp [add_service]]
      rw [hdomB, hdomA t]
      by_cases hA : t ∈ toolsA.map Prod.fst <;> by_cases hB : t ∈ toolsB.map Prod.fst <;>
        simp [hA, hB]
    · intro hmemA
      have hownA : (add_service emptyRegistry urlA sA toolsA nameA nowA).2.tool_to_session_map t
          = some sA := by
        simpa [add_service, emptyRegistry] using
          installTools_new_owner sA emptyRegistry.tool_cache emptyRegistry.tool_to_session_map
            toolsA t rfl hmemA
      obtain ⟨d, hd⟩ := Option.isSome_iff_exists.mp ((hdomA t).mpr hmemA)
      have hp := installTools_preserved sB
        (add_service emptyRegistry urlA sA toolsA nameA nowA).2.tool_cache
        (add_service emptyRegistry urlA sA toolsA nameA nowA).2.tool_to_session_map toolsB t d hd
      calc (add_service (add_service emptyRegistry urlA sA toolsA nameA nowA).2
              urlB sB toolsB nameB nowB).2.tool_to_session_map t
          = (installTools sB (add_service emptyRegistry urlA sA toolsA nameA nowA).2.tool_cache
              (add_service emptyRegistry urlA sA toolsA nameA nowA).2.tool_to_session_map
              toolsB).2.1 t := by simp [add_service]
        _ = (add_service emptyRegistry urlA sA toolsA nameA nowA).2.tool_to_session_map t :=
            hp.2.1
        _ = some sA := hownA

/-- Witness for C3: servers A and B both offer `echo`; B's add skips it and
A's session keeps owning it. -/
theorem add_service_first_writer_wins_witness :
    ("echo" ∉ (add_service c3StateA "http://b/sse" 2 [("echo", Json.null)] "B" 1).1)
    ∧ ((add_service (add_service emptyRegistry "http://a/sse" 1 [("echo", Json.obj [])] "A" 0).2
          "http://b/sse" 2 [("echo", Json.null)] "B" 1).2.tool_to_session_map "echo"
        = some 1) := by
  constructor
  · exact (add_service_first_writer_wins.1 c3StateA "http://b/sse" 2 [("echo", Json.null)]
      "B" 1 "echo" (by decide)).1
  · exact (add_service_first_writer_wins.2 "http://a/sse" 1 [("echo", Json.obj [])] "A" 0
      "http://b/sse" 2 [("echo", Json.null)] "B" 1 "echo").2 (by decide)

/-- C10: the registry does not enforce the add precondition.  If
`add_service` is called with a url already registered to a different session
stored nowhere else, the `Sessions` entry is overwritten while the old
session's tools stay in `tool_cache` and `tool_to_session_map`, so those
tools route to a session no longer in `range(Sessions)` (joint invariant 3 is
broken), and a same-named tool offered by the newcomer is skipped as a
conflict against the stale entry. -/
theorem add_service_bypass_breaks_owner_invariant
    (st : Registry) (url : String) (sOld sNew : Nat) (tools : List (String × Json))
    (name : String) (now : Int) (t : String) (d : Json)
    (hreg : st.sessions url = some sOld)
    (hne : sNew ≠ sOld)
    (honly : ∀ u, u ≠ url → st.sessions u ≠ some sOld)
    (hown : st.tool_to_session_map t = some sOld)
    (hcache : st.tool_cache t = some d) :
    (add_service st url sNew tools name now).2.sessions url = some sNew
    ∧ (add_service st url sNew tools name now).2.tool_to_session_map t = some sOld
    ∧ (∀ u, (add_service st url sNew tools name now).2.sessions u ≠ some sOld)
    ∧ ¬ OwnersLive (add_service st url sNew tools name now).2
    ∧ (t ∈ tools.map Prod.fst →
        t ∉ (add_service st url sNew tools name now).1
        ∧ (add_service st url sNew tools name now).2.tool_cache t = some d) := by
  have hp := installTools_preserved sNew st.tool_cache st.tool_to_session_map tools t d hcache
  have hsess : ∀ u, (add_service st url sNew tools name now).2.sessions u
      = mapInsert url sNew st.sessions u := by
    intro u
    simp [add_service]
  have hownkept : (add_service st url sNew tools name now).2.tool_to_session_map t
      = some sOld := by
    have : (add_service st url sNew tools name now).2.tool_to_session_map t
        = st.tool_to_session_map t := by simpa [add_service] using hp.2.1
    rw [this, hown]
  have hnowhere : ∀ u, (add_service st url sNew tools name now).2.sessions u ≠ some sOld := by
    intro u
    rw [hsess u]
    by_cases hu : u = url
    · subst hu
      simp [mapInsert]
      intro he
      exact hne he
    · simpa [mapInsert, hu] using honly u hu
  refine ⟨by simp [hsess url, mapInsert], hownkept, hnowhere, ?_, ?_⟩
  · intro hlive
    obtain ⟨u, hu⟩ := hlive t sOld hownkept
    exact hnowhere u hu
  · intro _
    refine ⟨?_, ?_⟩
    · simpa [add_service] using hp.2.2
    · simp only [add_service]
      rw [hp.1]

/-- Witness for C10: overwriting the registered url `u` (session 1, owning
`t1`) with fresh session 2 breaks invariant 3 and skips the newcomer's
`t1`. -/
theorem add_service_bypass_breaks_owner_invariant_witness :
    ¬ OwnersLive (add_service c10State "u" 2 [("t1", Json.null)] "new" 5).2
    ∧ "t1" ∉ (add_service c10State "u" 2 [("t1", Json.null)] "new" 5).1 := by
  have h := add_service_bypass_breaks_owner_invariant c10State "u" 1 2 [("t1", Json.null)]
    "new" 5 "t1" (Json.obj [])
    (by rfl) (by decide)
    (by
      intro u hu
      simp [c10State, add_service, emptyRegistry, mapInsert, hu])
    (by rfl) (by rfl)
  exact ⟨h.2.2.2.1, (h.2.2.2.2 (by decide)).1⟩

/-- C6: `is_service_healthy(url)` returns true iff the url is in
`dom(Sessions)` (equivalently, under joint invariant 1, has a heartbeat
record) and the heartbeat age is at most `heartbeat_timeout`; a heartbeat
aged exactly `heartbeat_timeout` is healthy; and the heartbeat loop marks a
url expired only when the age is strictly greater than the timeout or the
record is missing. -/
theorem is_service_healthy_iff (st : Registry) (heartbeat_timeout now : Int) (url : String)
    (hdom : SessionDomsAligned st) :
    (is_service_healthy st heartbeat_timeout now url = true
      ↔ ((st.sessions url).isSome
          ∧ ∃ t, st.service_health url = some t ∧ now - t ≤ heartbeat_timeout))
    ∧ (heartbeatExpired st heartbeat_timeout now url = true
      ↔ (st.service_health url = none
          ∨ ∃ t, st.service_health url = some t ∧ heartbeat_timeout < now - t))
    ∧ (∀ t, st.service_health url = some t → now - t = heartbeat_timeout →
        is_service_healthy st heartbeat_timeout now url = true
        ∧ heartbeatExpired st heartbeat_timeout now url = false) := by
  refine ⟨?_, ?_, ?_⟩
  · cases hh : st.service_health url with
    | none => simp [is_service_healthy, hh]
    | some t0 =>
      have hs : (st.sessions url).isSome := (hdom url).2.mpr (by simp [hh])
      simp [is_service_healthy, hh, hs]
  · cases hh : st.service_health url with
    | none => simp [heartbeatExpired, hh]
    | some t0 => simp [heartbeatExpired, hh]
  · intro t ht heq
    constructor
    · simp [is_service_healthy, ht, heq]
    · simp [heartbeatExpired, ht, heq]

/-- Witness for C6: for the service attached at time 10 with timeout 180, the
boundary instant `now = 190` (age exactly 180) is healthy and not expired. -/
theorem is_service_healthy_iff_witness :
    is_service_healthy c6State 180 190 "http://a/sse" = true
    ∧ heartbeatExpired c6State 180 190 "http://a/sse" = false := by
  have h := is_service_healthy_iff c6State 180 190 "http://a/sse"
    (by
      intro u
      by_cases hu : u = "http://a/sse" <;>
        simp [c6State, add_service, installTools, emptyRegistry, mapInsert, hu])
  exact h.2.2 10 (by rfl) (by decide)

/-- Substring containment holds whenever the pattern is a character-level
prefix of the haystack. -/
theorem pyIn_of_data_isPrefix (p s : String) (h : p.data <+: s.data) : pyIn p s = true := by
  simp only [pyIn, decide_eq_true_eq]
  exact h.isInfix

/-- The message-based classification of `/register` returns `(502, true)` as
soon as one of the two later marker substrings occurs. -/
theorem registerClassify_conn (msg : String)
    (h : pyIn "Connection failed" msg = true ∨ pyIn "Network connection error" msg = true) :
    registerClassify msg = (502, true) := by
  unfold registerClassify
  cases hb : pyIn "502 Bad Gateway" msg
  · rcases h with h | h <;> simp [hb, h]
  · simp

/-- The `"Connection failed"` marker occurs in the message built for an HTTP
502 failure. -/
theorem registerClassify_http502 (displayName url : String) :
    registerClassify (connectFailureMessage ConnectFailure.http502 displayName url)
      = (502, true) := by
  apply registerClassify_conn
  left
  apply pyIn_of_data_isPrefix
  show ("Connection failed").data <+:
    (("Connection failed: Target service returned 502 Bad Gateway. Please check if target service (\x27"
      ++ displayName) ++ "\x27) is healthy.").data
  rw [String.data_append, String.data_append]
  exact (((by decide :
    ("Connection failed").data <+:
      ("Connection failed: Target service returned 502 Bad Gateway. Please check if target service (\x27").data)).trans
    (List.prefix_append _ _)).trans (List.prefix_append _ _)

/-- The `"Connection failed"` marker occurs in the message built for any
other HTTP status failure. -/
theorem registerClassify_httpStatus (displayName url : String) (code : Nat) :
    registerClassify (connectFailureMessage (ConnectFailure.httpStatus code) displayName url)
      = (502, true) := by
  apply registerClassify_conn
  left
  apply pyIn_of_data_isPrefix
  show ("Connection failed").data <+:
    (("Connection failed: Target service returned HTTP " ++ toString code) ++ " error.").data
  rw [String.data_append, String.data_append]
  exact (((by decide :
    ("Connection failed").data <+:
      ("Connection failed: Target service returned HTTP ").data)).trans
    (List.prefix_append _ _)).trans (List.prefix_append _ _)

/-- The `"Network connection error"` marker occurs in the message built for a
network request failure. -/
theorem registerClassify_requestError (displayName url e : String) :
    registerClassify (connectFailureMessage (ConnectFailure.requestError e) displayName url)
      = (502, true) := by
  apply registerClassify_conn
  right
  apply pyIn_of_data_isPrefix
  show ("Network connection error").data <+:
    ("Network connection error: " ++ e).data
  rw [String.data_append]
  exact ((by decide :
    ("Network connection error").data <+: ("Network connection error: ").data)).trans
    (List.prefix_append _ _)

/-- C4 (amended): for `/register`, success discards the url from the
pending-reconnect set and surfaces 200; the endpoint then classifies a
failure by substring matching on the diagnostic message, so an HTTP 502, any
other HTTP status, and a network request error all surface 502 and add the
url to the pending set, while any failure whose message carries none of the
three markers — in particular a connect-class failure (`Unreachable`), a
protocol timeout, or a setup error with marker-free embedded text — surfaces
500 and leaves the pending set unchanged. -/
theorem register_endpoint_classification (pending : String → Bool)
    (url displayName : String) :
    ((registerResult pending url displayName none).1 = 200
      ∧ (registerResult pending url displayName none).2 url = false)
    ∧ ((registerResult pending url displayName (some ConnectFailure.http502)).1 = 502
      ∧ (registerResult pending url displayName (some ConnectFailure.http502)).2 url = true)
    ∧ (∀ code,
        (registerResult pending url displayName (some (ConnectFailure.httpStatus code))).1 = 502
        ∧ (registerResult pending url displayName
            (some (ConnectFailure.httpStatus code))).2 url = true)
    ∧ (∀ e,
        (registerResult pending url displayName (some (ConnectFailure.requestError e))).1 = 502
        ∧ (registerResult pending url displayName
            (some (ConnectFailure.requestError e))).2 url = true)
    ∧ (∀ f, registerClassify (connectFailureMessage f displayName url) = (500, false) →
        (registerResult pending url displayName (some f)).1 = 500
        ∧ (registerResult pending url displayName (some f)).2 = pending) := by
  refine ⟨⟨rfl, by simp [registerResult]⟩, ?_, ?_, ?_, ?_⟩
  · have h := registerClassify_http502 displayName url
    constructor
    · simp [registerResult, h]
    · simp [registerResult, h]
  · intro code
    have h := registerClassify_httpStatus displayName url code
    constructor
    · simp [registerResult, h]
    · simp [registerResult, h]
  · intro e
    have h := registerClassify_requestError displayName url e
    constructor
    · simp [registerResult, h]
    · simp [registerResult, h]
  · intro f h
    constructor
    · simp [registerResult, h]
    · simp [registerResult, h]

set_option maxRecDepth 8192 in
/-- Counterexample for C4 as stated: a connect-class failure (`Unreachable`,
message "Could not connect to service …") surfaces 500 and does not add the
url to the pending-reconnect set, and an HTTP 404 failure surfaces 502 and
does add it — the opposite of the claim for both classes. -/
theorem register_endpoint_counterexample :
    (registerResult (fun _ => false) "http://a/sse" "svc"
        (some (ConnectFailure.connectError "All connection attempts failed"))).1 = 500
    ∧ (registerResult (fun _ => false) "http://a/sse" "svc"
        (some (ConnectFailure.connectError "All connection attempts failed"))).2 "http://a/sse"
        = false
    ∧ (registerResult (fun _ => false) "http://a/sse" "svc"
        (some (ConnectFailure.httpStatus 404))).1 = 502
    ∧ (registerResult (fun _ => false) "http://a/sse" "svc"
        (some (ConnectFailure.httpStatus 404))).2 "http://a/sse" = true := by
  decide

set_option maxRecDepth 8192 in
/-- Witness for C4 (amended): on concrete inputs, success surfaces 200, and a
protocol timeout (whose message carries no marker) surfaces 500 with
unchanged pending set. -/
theorem register_endpoint_classification_witness :
    (registerResult (fun _ => false) "http://a/sse" "svc" none).1 = 200
    ∧ (registerResult (fun _ => false) "http://a/sse" "svc"
        (some ConnectFailure.protocolTimeout)).1 = 500
    ∧ (registerResult (fun _ => false) "http://a/sse" "svc"
        (some ConnectFailure.protocolTimeout)).2 = (fun _ => false) := by
  have h := register_endpoint_classification (fun _ => false) "http://a/sse" "svc"
  exact ⟨h.1.1, (h.2.2.2.2 ConnectFailure.protocolTimeout (by decide)).1,
    (h.2.2.2.2 ConnectFailure.protocolTimeout (by decide)).2⟩

/-- C7 (amended): a missing or falsy declared parameters value is replaced by
the empty object and wrapped; a JSON-object parameters value with
`"type":"object"` is stored unchanged; a JSON-object parameters value without
it is stored as `\x7b"type":"object","properties":<original>,
"required":[<top-level keys>]\x7d`; but a truthy non-object parameters value
is not stored with the wrapper — `list(parameters.keys())` raises
`AttributeError` instead. -/
theorem process_tool_parameters_normalization :
    (process_tool_parameters none
      = Except.ok (Json.obj [("type", Json.str "object"), ("properties", Json.obj []),
          ("required", Json.arr [])]))
    ∧ (∀ j, jsonTruthy j = false →
        process_tool_parameters (some j)
          = Except.ok (Json.obj [("type", Json.str "object"), ("properties", Json.obj []),
              ("required", Json.arr [])]))
    ∧ (∀ fields, jsonTruthy (Json.obj fields) = true → isTypeObject fields = true →
        process_tool_parameters (some (Json.obj fields)) = Except.ok (Json.obj fields))
    ∧ (∀ fields, jsonTruthy (Json.obj fields) = true → isTypeObject fields = false →
        process_tool_parameters (some (Json.obj fields))
          = Except.ok (Json.obj [("type", Json.str "object"),
              ("properties", Json.obj fields),
              ("required", Json.arr (fields.map (fun p => Json.str p.1)))]))
    ∧ (∀ j, jsonTruthy j = true → (∀ fields, j ≠ Json.obj fields) →
        process_tool_parameters (some j)
          = Except.error "AttributeError: parameters object has no attribute keys") := by
  refine ⟨rfl, ?_, ?_, ?_, ?_⟩
  · intro j hj
    simp [process_tool_parameters, hj, isTypeObject, objGet]
  · intro fields ht hT
    simp [process_tool_parameters, ht, hT]
  · intro fields ht hT
    simp [process_tool_parameters, ht, hT]
  · intro j ht hne
    cases j with
    | null => simp [jsonTruthy] at ht
    | bool b => simp [process_tool_parameters, ht]
    | num n => simp [process_tool_parameters, ht]
    | str s => simp [process_tool_parameters, ht]
    | arr l => simp [process_tool_parameters, ht]
    | obj fields => exact absurd rfl (hne fields)

/-- Counterexample for C7 as stated: for the truthy non-object declared
parameters `"x"` — which is "not a JSON object with type object" — the code
does not store the spec's wrapper: `list(parameters.keys())` raises
`AttributeError`, so the tool is not stored at all. -/
theorem process_tool_parameters_counterexample :
    process_tool_parameters (some (Json.str "x"))
      = Except.error "AttributeError: parameters object has no attribute keys"
    ∧ process_tool_parameters (some (Json.str "x"))
      ≠ Except.ok (specWrap (Json.str "x")) := by
  refine ⟨rfl, ?_⟩
  intro h
  exact Except.noConfusion h

/-- Witness for C7 (amended): a bare properties map is wrapped with
`type:object` and `required` listing its keys. -/
theorem process_tool_parameters_normalization_witness :
    process_tool_parameters (some (Json.obj [("city", Json.str "desc")]))
      = Except.ok (Json.obj [("type", Json.str "object"),
          ("properties", Json.obj [("city", Json.str "desc")]),
          ("required", Json.arr [Json.str "city"])]) := by
  have h := process_tool_parameters_normalization.2.2.2.1 [("city", Json.str "desc")]
    (by decide) (by decide)
  exact h

/-- Per-run bounds of the agent loop: the model-call count is bounded by the
starting count plus the remaining fuel, and tool dispatches never outnumber
model calls. -/
theorem processQueryAux_bounds (cfg : AgentConfig) (oracle : Nat → IterOracle) :
    ∀ (fuel : Nat) (msgs : List Message) (calls disp : Nat),
      (processQueryAux cfg oracle fuel msgs calls disp).modelCalls ≤ calls + fuel
      ∧ (processQueryAux cfg oracle fuel msgs calls disp).toolDispatches + calls
          ≤ disp + (processQueryAux cfg oracle fuel msgs calls disp).modelCalls := by
  intro fuel
  induction fuel with
  | zero =>
    intro msgs calls disp
    simp [processQueryAux]
  | succ n ih =>
    intro msgs calls disp
    by_cases hc : cfg.llmConfigured = false
    · simp [processQueryAux, hc]
    · cases hstep : loopStep (oracle calls) msgs with
      | done r =>
        have heq : processQueryAux cfg oracle (n + 1) msgs calls disp
            = { result := some r, modelCalls := calls + 1, toolDispatches := disp,
                messages := msgs } := by
          simp [processQueryAux, hc, hstep]
        rw [heq]
        constructor
        · simp
        · simp
      | next msgs2 =>
        have heq : processQueryAux cfg oracle (n + 1) msgs calls disp
            = processQueryAux cfg oracle n msgs2 (calls + 1) (disp + 1) := by
          simp [processQueryAux, hc, hstep]
        rw [heq]
        have h2 := ih msgs2 (calls + 1) (disp + 1)
        constructor
        · have := h2.1
          omega
        · have := h2.2
          omega

/-- C2: for every query and every (finite or infinite) sequence of model
responses — here the environment `oracle` indexed by model-call count — the
ReAct loop `process_query` terminates (it is a total function of the fuel
`max_iterations`) after at most `max_iterations` model calls, and the driver
never re-invokes a tool on its own: tool dispatches never outnumber model
calls. -/
theorem process_query_model_call_bound (cfg : AgentConfig) (oracle : Nat → IterOracle)
    (sysPrompt query : String) :
    (process_query cfg oracle sysPrompt query).modelCalls ≤ cfg.maxIterations
    ∧ (process_query cfg oracle sysPrompt query).toolDispatches
        ≤ (process_query cfg oracle sysPrompt query).modelCalls := by
  by_cases hc : cfg.hasClient = false
  · simp [process_query, hc]
  · have hpq : process_query cfg oracle sysPrompt query
        = processQueryAux cfg oracle cfg.maxIterations
            [Message.system sysPrompt, Message.user query] 0 0 := by
      simp [process_query, hc]
    rw [hpq]
    have h := processQueryAux_bounds cfg oracle cfg.maxIterations
      [Message.system sysPrompt, Message.user query] 0 0
    have h1 := h.1
    have h2 := h.2
    constructor
    · omega
    · omega

/-- C5: inside the agent loop, when the model requests a tool call, every
dispatch failure — argument JSON-decode failure, unresolved tool name,
unhealthy owning service, exception raised by `call_tool`, or unexpected
result shape — is converted into a tool-result error string appended to the
history as a tool turn, after which the loop continues to the next model
call; no such failure terminates the loop or is raised to the client. -/
theorem agent_loop_failures_continue (o : IterOracle) (msgs : List Message)
    (resp : ModelResponse) (tc : ToolCallReq) (rest : List ToolCallReq)
    (hllm : o.llm = LLMOutcome.ok resp)
    (hfr : resp.finish_reason = "tool_calls")
    (htc : resp.tool_calls = tc :: rest) :
    (loopStep o msgs = StepOut.next
        (msgs ++ [Message.assistantToolCall tc.id tc.name tc.arguments,
                  Message.tool tc.id (dispatchToolCall o tc.name)]))
    ∧ (∀ e, o.parse = Except.error e →
        dispatchToolCall o tc.name
          = "Error: Unable to parse parameters for tool \x27" ++ tc.name ++ "\x27: " ++ e)
    ∧ (∀ a, o.parse = Except.ok a → o.owner = none →
        dispatchToolCall o tc.name
          = "Error: Could not find service to execute tool \x27" ++ tc.name ++ "\x27.")
    ∧ (∀ a s, o.parse = Except.ok a → o.owner = some s → o.healthy = false →
        dispatchToolCall o tc.name
          = "Error: The service required to execute tool \x27" ++ tc.name
              ++ "\x27 is currently unavailable.")
    ∧ (∀ a s e, o.parse = Except.ok a → o.owner = some s → o.healthy = true →
        o.call = Except.error e →
        dispatchToolCall o tc.name
          = "Error: An internal error occurred while calling tool \x27" ++ tc.name
              ++ "\x27: " ++ e)
    ∧ (∀ a s r, o.parse = Except.ok a → o.owner = some s → o.healthy = true →
        o.call = Except.ok r → (r.content = [] ∨ r.content.head? = some none) →
        dispatchToolCall o tc.name
          = "Info: Tool \x27" ++ tc.name ++ "\x27 executed, but result format was unexpected.") := by
  refine ⟨?_, ?_, ?_, ?_, ?_, ?_⟩
  · simp [loopStep, hllm, htc, hfr]
  · intro e hp
    simp [dispatchToolCall, hp]
  · intro a hp ho
    simp [dispatchToolCall, hp, ho]
  · intro a s hp ho hh
    simp [dispatchToolCall, hp, ho, hh]
  · intro a s e hp ho hh hcall
    simp [dispatchToolCall, hp, ho, hh, hcall]
  · intro a s r hp ho hh hcall hshape
    rcases hshape with hnil | hhead
    · simp [dispatchToolCall, hp, ho, hh, hcall, hnil]
    · cases hcon : r.content with
      | nil => simp [dispatchToolCall, hp, ho, hh, hcall, hcon]
      | cons item tail =>
        rw [hcon] at hhead
        simp at hhead
        simp [dispatchToolCall, hp, ho, hh, hcall, hcon, hhead]

/-- Witness for C5: a tool call whose arguments fail `json.loads` makes the
loop continue with the parse-error string appended as a tool turn. -/
theorem agent_loop_failures_continue_witness :
    loopStep c5Oracle [Message.user "weather in beijing"]
      = StepOut.next [Message.user "weather in beijing",
          Message.assistantToolCall "call-1" "get_weather" "not json",
          Message.tool "call-1"
            "Error: Unable to parse parameters for tool \x27get_weather\x27: Expecting value: line 1 column 1 (char 0)"] := by
  have h := agent_loop_failures_continue c5Oracle [Message.user "weather in beijing"]
    c5Resp c5Tc [] rfl rfl rfl
  have he := h.2.1 "Expecting value: line 1 column 1 (char 0)" rfl
  rw [h.1, he]
  rfl

/-- When every remaining model response requests a tool call, the loop burns
all its fuel, makes one model call and one dispatch per unit of fuel, and
returns the cap string built from the content of the last message — which is
the tool-result turn of the final iteration. -/
theorem processQueryAux_cap (cfg : AgentConfig) (oracle : Nat → IterOracle)
    (hconf : cfg.llmConfigured = true) :
    ∀ (fuel : Nat) (msgs : List Message) (calls disp : Nat),
      1 ≤ fuel →
      (∀ k, calls ≤ k → k < calls + fuel →
        ∃ resp tc rest, (oracle k).llm = LLMOutcome.ok resp
          ∧ resp.finish_reason = "tool_calls" ∧ resp.tool_calls = tc :: rest) →
      ∃ pre id s,
        processQueryAux cfg oracle fuel msgs calls disp =
          { result := some ("Processing your request exceeded the maximum iteration limit ("
              ++ toString cfg.maxIterations ++ "). " ++ s)
            modelCalls := calls + fuel
            toolDispatches := disp + fuel
            messages := pre ++ [Message.tool id s] } := by
  intro fuel
  induction fuel with
  | zero =>
    intro msgs calls disp h1 _
    exact absurd h1 (by omega)
  | succ n ih =>
    intro msgs calls disp _ hall
    obtain ⟨resp, tc, rest, hllm, hfr, htc⟩ := hall calls (Nat.le_refl calls) (by omega)
    have hnotfalse : ¬ cfg.llmConfigured = false := by simp [hconf]
    have hstep : loopStep (oracle calls) msgs
        = StepOut.next (msgs ++ [Message.assistantToolCall tc.id tc.name tc.arguments,
            Message.tool tc.id (dispatchToolCall (oracle calls) tc.name)]) := by
      simp [loopStep, hllm, htc, hfr]
    cases n with
    | zero =>
      refine ⟨msgs ++ [Message.assistantToolCall tc.id tc.name tc.arguments], tc.id,
        dispatchToolCall (oracle calls) tc.name, ?_⟩
      have hlast : (msgs ++ [Message.assistantToolCall tc.id tc.name tc.arguments,
          Message.tool tc.id (dispatchToolCall (oracle calls) tc.name)]).getLast?
          = some (Message.tool tc.id (dispatchToolCall (oracle calls) tc.name)) := by
        rw [show msgs ++ [Message.assistantToolCall tc.id tc.name tc.arguments,
            Message.tool tc.id (dispatchToolCall (oracle calls) tc.name)]
          = (msgs ++ [Message.assistantToolCall tc.id tc.name tc.arguments])
              ++ [Message.tool tc.id (dispatchToolCall (oracle calls) tc.name)] by simp]
        exact List.getLast?_concat _
      have h01 : processQueryAux cfg oracle 1 msgs calls disp
          = { result := capMessage cfg.maxIterations
                (msgs ++ [Message.assistantToolCall tc.id tc.name tc.arguments,
                  Message.tool tc.id (dispatchToolCall (oracle calls) tc.name)])
              modelCalls := calls + 1, toolDispatches := disp + 1
              messages := msgs ++ [Message.assistantToolCall tc.id tc.name tc.arguments,
                Message.tool tc.id (dispatchToolCall (oracle calls) tc.name)] } := by
        simp [processQueryAux, hnotfalse, hstep]
      rw [h01]
      have hcap : capMessage cfg.maxIterations
          (msgs ++ [Message.assistantToolCall tc.id tc.name tc.arguments,
            Message.tool tc.id (dispatchToolCall (oracle calls) tc.name)])
          = some ("Processing your request exceeded the maximum iteration limit ("
              ++ toString cfg.maxIterations ++ "). "
              ++ dispatchToolCall (oracle calls) tc.name) := by
        simp [capMessage, hlast, msgContent]
      rw [hcap]
      simp [List.append_assoc]
    | succ m =>
      have hall2 : ∀ k, calls + 1 ≤ k → k < calls + 1 + (m + 1) →
          ∃ resp tc rest, (oracle k).llm = LLMOutcome.ok resp
            ∧ resp.finish_reason = "tool_calls" ∧ resp.tool_calls = tc :: rest :=
        fun k hk1 hk2 => hall k (by omega) (by omega)
      obtain ⟨pre, id, s, heq⟩ := ih
        (msgs ++ [Message.assistantToolCall tc.id tc.name tc.arguments,
          Message.tool tc.id (dispatchToolCall (oracle calls) tc.name)])
        (calls + 1) (disp + 1) (by omega) hall2
      refine ⟨pre, id, s, ?_⟩
      have heq2 : processQueryAux cfg oracle (m + 1 + 1) msgs calls disp
          = processQueryAux cfg oracle (m + 1)
              (msgs ++ [Message.assistantToolCall tc.id tc.name tc.arguments,
                Message.tool tc.id (dispatchToolCall (oracle calls) tc.name)])
              (calls + 1) (disp + 1) := by
        simp [processQueryAux, hnotfalse, hstep]
      rw [heq2, heq]
      have e1 : calls + 1 + (m + 1) = calls + (m + 1 + 1) := by omega
      have e2 : disp + 1 + (m + 1) = disp + (m + 1 + 1) := by omega
      rw [e1, e2]

/-- C8 (amended): when every model response requests a tool call, the loop
stops after exactly `max_iterations` model calls and returns
`"Processing your request exceeded the maximum iteration limit (N). "`
followed by the content of the last message of the history — which is the
tool-result turn of the final iteration, not an assistant content (the
assistant tool-call turns in the history carry `content: None`). -/
theorem iteration_cap_result (cfg : AgentConfig) (oracle : Nat → IterOracle)
    (sysPrompt query : String)
    (hclient : cfg.hasClient = true)
    (hconf : cfg.llmConfigured = true)
    (hpos : 1 ≤ cfg.maxIterations)
    (hall : ∀ k, k < cfg.maxIterations →
      ∃ resp tc rest, (oracle k).llm = LLMOutcome.ok resp
        ∧ resp.finish_reason = "tool_calls" ∧ resp.tool_calls = tc :: rest) :
    (process_query cfg oracle sysPrompt query).modelCalls = cfg.maxIterations
    ∧ ∃ id s,
        (process_query cfg oracle sysPrompt query).messages.getLast?
          = some (Message.tool id s)
        ∧ (process_query cfg oracle sysPrompt query).result
          = some ("Processing your request exceeded the maximum iteration limit ("
              ++ toString cfg.maxIterations ++ "). " ++ s) := by
  have hnotfalse : ¬ cfg.hasClient = false := by simp [hclient]
  have hpq : process_query cfg oracle sysPrompt query
      = processQueryAux cfg oracle cfg.maxIterations
          [Message.system sysPrompt, Message.user query] 0 0 := by
    simp [process_query, hnotfalse]
  obtain ⟨pre, id, s, heq⟩ := processQueryAux_cap cfg oracle hconf cfg.maxIterations
    [Message.system sysPrompt, Message.user query] 0 0 hpos
    (fun k hk1 hk2 => hall k (by omega))
  rw [hpq, heq]
  exact ⟨Nat.zero_add _, id, s, List.getLast?_concat _, rfl⟩

/-- Witness for C8 (amended): with cap 1 and a model that always calls the
unknown tool `f`, the run makes exactly one model call and returns the cap
string followed by the tool-result error of the final iteration. -/
theorem iteration_cap_result_witness :
    (process_query c8Cfg c8Oracle "sys" "q").modelCalls = 1
    ∧ (process_query c8Cfg c8Oracle "sys" "q").result
        = some ("Processing your request exceeded the maximum iteration limit (1). Error: Could not find service to execute tool \x27f\x27.") := by
  have h := iteration_cap_result c8Cfg c8Oracle "sys" "q" rfl rfl (by decide)
    (fun k _ => ⟨_, _, [], rfl, rfl, rfl⟩)
  exact ⟨h.1, by rfl⟩

/-- Counterexample for C8 as stated: in the capped run the suffix of the
returned string is the last tool result, not "the last assistant content from
the message history" — the last assistant content is empty (assistant
tool-call turns carry `content: None`) while the returned string carries the
tool error. -/
theorem iteration_cap_counterexample :
    (process_query c8Cfg c8Oracle "sys" "q").result
      = some ("Processing your request exceeded the maximum iteration limit (1). Error: Could not find service to execute tool \x27f\x27.")
    ∧ lastAssistantContentD (process_query c8Cfg c8Oracle "sys" "q").messages = ""
    ∧ (process_query c8Cfg c8Oracle "sys" "q").result
      ≠ some ("Processing your request exceeded the maximum iteration limit (1). "
          ++ lastAssistantContentD (process_query c8Cfg c8Oracle "sys" "q").messages) := by
  refine ⟨by rfl, by rfl, by decide⟩
